import Mathlib

/-!
Shallow embedding of the snake-game core of `streamlit_snake_app.py`.

The embedded parts are the class `SnakeGame` (fields `snake`, `direction`,
`food`, `score`, `game_over`, `last_update`, `last_direction_change` and the
methods `reset_game`, `generate_food`, `get_hand_direction`, `update`) and the
direction-sampling/tick-driving logic of `VideoProcessor.recv`.

Modelling conventions:
* positions are pairs of integers (pixel coordinates, as in the source);
* wall-clock times are rationals (the source uses `time.time()` floats; every
  comparison in the source is an order comparison, faithfully mirrored on ℚ);
* the random number generator is modelled as an explicit list of draws: each
  entry is a pair of naturals standing for one round of
  `random.randint(0, 31), random.randint(0, 23)`; reduction mod the range
  bound reproduces the fact that `randint` always yields a value in range;
* Python code paths that never return normally (the unbounded
  `while True` of `generate_food` once the supplied draws are exhausted, or an
  `IndexError` on an empty snake) are represented by `Option.none`.
-/

namespace SnakeApp

/-- A pixel position `(x, y)`, as the source's `(int, int)` tuples. -/
abbrev Pos := ℤ × ℤ

/-- Board width: `self.width = 640`. -/
def width : ℤ := 640

/-- Board height: `self.height = 480`. -/
def height : ℤ := 480

/-- Cell size: `self.grid_size = 20`. -/
def grid_size : ℤ := 20

/-- Tick interval: `self.game_speed = 0.12`. -/
def game_speed : ℚ := 12 / 100

/-- Debounce interval: `self.direction_cooldown = 0.15`. -/
def direction_cooldown : ℚ := 15 / 100

/-- Pointer dead zone: `dead_zone = 40` (local constant of `get_hand_direction`). -/
def dead_zone : ℤ := 40

/-- The mutable fields of the `SnakeGame` object. -/
structure State where
  snake : List Pos
  direction : Pos
  food : Pos
  score : ℕ
  game_over : Bool
  last_update : ℚ
  last_direction_change : ℚ
deriving Repr, DecidableEq

/-- One round of the source's
`random.randint(0, (width - grid_size) // grid_size)` /
`random.randint(0, (height - grid_size) // grid_size)` pair:
`(640-20)//20 = 31` and `(480-20)//20 = 23`, then multiplication by
`grid_size`.  The raw draw `r` is reduced mod the inclusive bound `+ 1`,
so the produced cell ranges over exactly the cells `randint` can produce. -/
def foodCell (r : ℕ × ℕ) : Pos :=
  (((r.1 % 32 : ℕ) : ℤ) * grid_size, ((r.2 % 24 : ℕ) : ℤ) * grid_size)

/-- The method `SnakeGame.generate_food`: draw random grid cells until one is outside the
snake.  The `while True:` loop is given the explicit draw list `rand`; `none`
means the loop consumed every supplied draw without returning — with an
infinite real RNG that is exactly the "loops forever" behaviour. -/
def generate_food (snake : List Pos) : List (ℕ × ℕ) → Option Pos
  | [] => none
  | r :: rs =>
    let food_pos := foodCell r
    if food_pos ∈ snake then generate_food snake rs else some food_pos

/-- Predicate: `generate_food` terminates (returns at all) for this snake under some
sequence of random draws. -/
def generate_food_terminates (snake : List Pos) : Prop :=
  ∃ rand, (generate_food snake rand).isSome = true

/-- The method `SnakeGame.get_hand_direction`, lines 105-129, with the fingertip already
converted to integer pixel coordinates (`finger_x`, `finger_y`); `head` is
`self.snake[0]` and `direction` is `self.direction`. -/
def get_hand_direction (head : Pos) (direction : Pos) (finger : ℤ × ℤ) : Pos :=
  let dx := finger.1 - head.1
  let dy := finger.2 - head.2
  if |dx| > |dy| ∧ |dx| > dead_zone then
    let new_direction : Pos := if dx > 0 then (grid_size, 0) else (-grid_size, 0)
    if (new_direction.1 * -1, new_direction.2 * -1) = direction then direction
    else new_direction
  else if |dy| > |dx| ∧ |dy| > dead_zone then
    let new_direction : Pos := if dy > 0 then (0, grid_size) else (0, -grid_size)
    if (new_direction.1 * -1, new_direction.2 * -1) = direction then direction
    else new_direction
  else direction

/-- The body of `SnakeGame.update` after its two early-return guards
(`game_over`, tick-rate), lines 139-156: stamp `last_update`, move the head,
detect wall/self collision, eat or advance.  `rand` feeds `generate_food`
when food is eaten; `none` reports that `generate_food` never returned. -/
def tickAct (s : State) (current_time : ℚ) (rand : List (ℕ × ℕ)) : Option State :=
  match s.snake with
  | [] => none
  | head :: rest =>
    let new_head : Pos := (head.1 + s.direction.1, head.2 + s.direction.2)
    if new_head.1 < 0 ∨ new_head.1 ≥ width ∨
        new_head.2 < 0 ∨ new_head.2 ≥ height ∨ new_head ∈ rest then
      some { s with last_update := current_time, game_over := true }
    else if new_head = s.food then
      match generate_food (new_head :: s.snake) rand with
      | none => none
      | some f =>
        some { s with last_update := current_time, snake := new_head :: s.snake,
                      score := s.score + 10, food := f }
    else
      some { s with last_update := current_time, snake := (new_head :: s.snake).dropLast }

/-- The method `SnakeGame.update`, lines 131-156: no-op when `game_over`, no-op when
called again less than `game_speed` after the last acted tick, otherwise one
`tickAct` step. -/
def update (s : State) (current_time : ℚ) (rand : List (ℕ × ℕ)) : Option State :=
  if s.game_over then some s
  else if current_time - s.last_update < game_speed then some s
  else tickAct s current_time rand

/-- The method `SnakeGame.reset_game`, lines 89-95: single-segment snake at the board
centre, direction Right, fresh food, zero score, running, tick clock reset.
`last_direction_change` is not among the assigned fields. -/
def reset_game (s : State) (now : ℚ) (rand : List (ℕ × ℕ)) : Option State :=
  let snake : List Pos := [(width / 2, height / 2)]
  match generate_food snake rand with
  | none => none
  | some f =>
    some { s with snake := snake, direction := (grid_size, 0), food := f,
                  score := 0, game_over := false, last_update := now }

/-- The direction-sampling half of `VideoProcessor.recv`, lines 212-223: when
a hand is visible and the game is running, and the cooldown has elapsed,
resolve a candidate direction and store it (stamping
`last_direction_change`) if it differs from the current one.  `none` models
the `IndexError` `get_hand_direction` would raise on an empty snake. -/
def stageDir (s : State) (now : ℚ) (finger : Option (ℤ × ℤ)) : Option State :=
  match finger with
  | none => some s
  | some f =>
    if s.game_over then some s
    else
      match s.snake with
      | [] => none
      | head :: _ =>
        if now - s.last_direction_change > direction_cooldown then
          let new_direction := get_hand_direction head s.direction f
          if new_direction ≠ s.direction then
            some { s with direction := new_direction, last_direction_change := now }
          else some s
        else some s

/-- One external event driving the game: a processed video frame
(`VideoProcessor.recv`) carrying an optional fingertip sample, or a bare
call to `update` (a frame with no hand takes this same path). -/
inductive Event where
  | frame (now : ℚ) (finger : Option (ℤ × ℤ)) (rand : List (ℕ × ℕ))
  | tick (now : ℚ) (rand : List (ℕ × ℕ))
deriving Repr

/-- The timestamp of an event. -/
def Event.time : Event → ℚ
  | .frame now _ _ => now
  | .tick now _ => now

/-- The random draws an event supplies to a potential `generate_food` call. -/
def Event.rand : Event → List (ℕ × ℕ)
  | .frame _ _ rand => rand
  | .tick _ rand => rand

/-- The direction-sampling phase of an event (`tick` events have none). -/
def Event.stage (s : State) : Event → Option State
  | .frame now finger _ => stageDir s now finger
  | .tick _ _ => some s

/-- Does this `update` call act (pass both early-return guards)? -/
def acted (s : State) (now : ℚ) : Bool :=
  !s.game_over && decide (game_speed ≤ now - s.last_update)

/-- Run a list of events, logging the direction in force at each acted tick
(the direction `update` adds to the head, after the frame's own direction
sampling).  Returns the final state and the log of applied directions. -/
def runLog (s : State) : List Event → Option (State × List Pos)
  | [] => some (s, [])
  | e :: rest =>
    match Event.stage s e with
    | none => none
    | some s1 =>
      match update s1 e.time e.rand with
      | none => none
      | some s2 =>
        match runLog s2 rest with
        | none => none
        | some (sf, log) =>
          some (sf, (if acted s1 e.time then [s1.direction] else []) ++ log)

/-- Run a list of events, keeping only the final state. -/
def run (s : State) (evs : List Event) : Option State :=
  (runLog s evs).map Prod.fst

/-- Run a list of bare `update` calls (timestamp and random draws each). -/
def runTicks (s : State) : List (ℚ × List (ℕ × ℕ)) → Option State
  | [] => some s
  | c :: rest =>
    match update s c.1 c.2 with
    | none => none
    | some s1 => runTicks s1 rest

/-! ### Derived notions used by the verification -/

/-- A position lies inside the board, `[0, W) × [0, H)`. -/
def inBoard (p : Pos) : Prop :=
  0 ≤ p.1 ∧ p.1 < width ∧ 0 ≤ p.2 ∧ p.2 < height

/-- A position is grid-aligned: both coordinates are multiples of the cell
size. -/
def gridAligned (p : Pos) : Prop :=
  p.1 % grid_size = 0 ∧ p.2 % grid_size = 0

/-- A direction is one of the four cardinal steps the game ever stores. -/
def dirOK (d : Pos) : Prop :=
  d = (grid_size, 0) ∨ d = (-grid_size, 0) ∨ d = (0, grid_size) ∨ d = (0, -grid_size)

/-- The inductive invariant of the game state: nonempty snake, every segment
in board and aligned, no duplicate segments while running, a cardinal
direction, and the score locked to the growth of the snake. -/
def Inv (s : State) : Prop :=
  s.snake ≠ [] ∧
  (∀ p ∈ s.snake, inBoard p ∧ gridAligned p) ∧
  (s.game_over = false → s.snake.Nodup) ∧
  dirOK s.direction ∧
  s.score = 10 * (s.snake.length - 1)

/-- The cells `(x, j*20)` for `0 ≤ j < n`: one column prefix of the board. -/
def colCells (x : ℤ) : ℕ → List Pos
  | 0 => []
  | Nat.succ j => (x, (j : ℤ) * grid_size) :: colCells x j

/-- The cells of the first `i` columns of the board. -/
def boardCells : ℕ → List Pos
  | 0 => []
  | Nat.succ i => colCells ((i : ℤ) * grid_size) 24 ++ boardCells i

/-- Every grid cell of the 640×480/20 board: the 32×24 cells
`(i*20, j*20)`, `0 ≤ i < 32`, `0 ≤ j < 24` — a snake occupying the whole
board. -/
def fullBoard : List Pos := boardCells 32

/-! ### Concrete states and traces used by witnesses and counterexamples -/

/-- A running state whose snake forms a 2×2 loop: the head `(20, 0)` is about
to move into `(0, 0)`, the cell occupied by the tail, and the food is
elsewhere, so the tail would be vacated this tick. -/
def loopState : State :=
  { snake := [(20, 0), (20, 20), (0, 20), (0, 0)], direction := (-20, 0),
    food := (100, 100), score := 30, game_over := false,
    last_update := 0, last_direction_change := 0 }

/-- A fresh single-segment running state at the board centre. -/
def startState : State :=
  { snake := [(320, 240)], direction := (20, 0), food := (100, 100),
    score := 0, game_over := false, last_update := 0, last_direction_change := 0 }

/-- State `startState` after one acted tick at time 1: the head moved Right. -/
def startTickedState : State :=
  { snake := [(340, 240)], direction := (20, 0), food := (100, 100),
    score := 0, game_over := false, last_update := 1, last_direction_change := 0 }

/-- A trace for `startState`: a tick at 0.13 (applies Right), a frame at 0.20
whose fingertip resolves Up (accepted, no tick due), and a frame at 0.40
whose fingertip resolves Left (accepted — Left is not the reverse of Up —
and a tick is due, so Left is applied). -/
def reversalEvents : List Event :=
  [Event.tick (13 / 100) [],
   Event.frame (20 / 100) (some (340, 140)) [],
   Event.frame (40 / 100) (some (240, 240)) []]

/-- A finished game, with a direction-change cooldown stamped at 0.7. -/
def overState : State :=
  { snake := [(0, 240)], direction := (-20, 0), food := (100, 100),
    score := 40, game_over := true, last_update := 0, last_direction_change := 7 / 10 }

/-- What `reset_game overState 5 [(0, 0)]` produces: note the old
`last_direction_change` 0.7 survives the reset. -/
def resetFromOverState : State :=
  { snake := [(320, 240)], direction := (20, 0), food := (0, 0), score := 0,
    game_over := false, last_update := 5, last_direction_change := 7 / 10 }

/-- What `reset_game overState 0 [(0, 0)]` produces. -/
def resetWitnessState : State :=
  { snake := [(320, 240)], direction := (20, 0), food := (0, 0), score := 0,
    game_over := false, last_update := 0, last_direction_change := 7 / 10 }

/-- State `resetWitnessState` after one acted tick at time 1. -/
def tickedWitnessState : State :=
  { snake := [(340, 240)], direction := (20, 0), food := (0, 0), score := 0,
    game_over := false, last_update := 1, last_direction_change := 7 / 10 }

/-- A running state one cell to the left of its food. -/
def aboutToEatState : State :=
  { snake := [(300, 240)], direction := (20, 0), food := (320, 240),
    score := 0, game_over := false, last_update := 0, last_direction_change := 0 }

/-! ### Lemmas about `generate_food` -/

/-- A returned food cell is never on the snake. -/
theorem generate_food_not_mem {snake : List Pos} {rand : List (ℕ × ℕ)} {p : Pos}
    (h : generate_food snake rand = some p) : p ∉ snake := by
  induction rand with
  | nil => simp [generate_food] at h
  | cons r rs ih =>
    by_cases hm : foodCell r ∈ snake
    · exact ih (by simpa [generate_food, hm] using h)
    · simp only [generate_food, if_neg hm, Option.some.injEq] at h
      exact h ▸ hm

/-- Membership in a column prefix. -/
theorem mem_colCells {x : ℤ} {j n : ℕ} (hj : j < n) :
    (x, (j : ℤ) * grid_size) ∈ colCells x n := by
  induction n with
  | zero => omega
  | succ m ih =>
    rcases Nat.lt_succ_iff_lt_or_eq.mp hj with h | h
    · exact List.mem_cons_of_mem _ (ih h)
    · subst h; exact List.mem_cons_self _ _

/-- Membership in a column-range of the board. -/
theorem mem_boardCells {i j m : ℕ} (hi : i < m) (hj : j < 24) :
    ((i : ℤ) * grid_size, (j : ℤ) * grid_size) ∈ boardCells m := by
  induction m with
  | zero => omega
  | succ k ih =>
    rcases Nat.lt_succ_iff_lt_or_eq.mp hi with h | h
    · exact List.mem_append_right _ (ih h)
    · subst h; exact List.mem_append_left _ (mem_colCells hj)

/-- Every cell `generate_food` can draw is a cell of the board list. -/
theorem foodCell_mem_fullBoard (r : ℕ × ℕ) : foodCell r ∈ fullBoard :=
  mem_boardCells (Nat.mod_lt r.1 (by norm_num)) (Nat.mod_lt r.2 (by norm_num))

/-- On a fully occupied board every draw is rejected: `generate_food` never
returns, whatever the random draws are. -/
theorem generate_food_fullBoard (rand : List (ℕ × ℕ)) :
    generate_food fullBoard rand = none := by
  induction rand with
  | nil => rfl
  | cons r rs ih => simp [generate_food, foodCell_mem_fullBoard r, ih]

/-- Food placement succeeds as soon as some draw in the list falls outside
the snake, and the returned cell is outside the snake. -/
theorem generate_food_of_free {snake : List Pos} {rand : List (ℕ × ℕ)}
    (h : ∃ r ∈ rand, foodCell r ∉ snake) :
    ∃ p, generate_food snake rand = some p ∧ p ∉ snake := by
  induction rand with
  | nil => simp at h
  | cons r rs ih =>
    by_cases hm : foodCell r ∈ snake
    · obtain ⟨r', hr', hfree⟩ := h
      rcases List.mem_cons.mp hr' with h' | h'
      · exact absurd (h' ▸ hm) hfree
      · obtain ⟨p, hp, hpn⟩ := ih ⟨r', h', hfree⟩
        exact ⟨p, by simpa [generate_food, hm] using hp, hpn⟩
    · exact ⟨foodCell r, by simp [generate_food, hm], hm⟩

/-! ### Lemmas about `get_hand_direction` -/

/-- The resolver either leaves the direction unchanged, or returns a cardinal
direction whose negation differs from the current direction (the
anti-reversal guard of lines 126-127). -/
theorem get_hand_direction_cases (head d : Pos) (f : ℤ × ℤ) :
    get_hand_direction head d f = d ∨
      (dirOK (get_hand_direction head d f) ∧
        ((get_hand_direction head d f).1 * -1, (get_hand_direction head d f).2 * -1) ≠ d) := by
  unfold get_hand_direction
  dsimp only
  split_ifs <;> simp_all [dirOK]

/-- The resolver output is cardinal whenever the input direction is. -/
theorem get_hand_direction_dirOK {d : Pos} (hd : dirOK d) (head : Pos) (f : ℤ × ℤ) :
    dirOK (get_hand_direction head d f) := by
  rcases get_hand_direction_cases head d f with h | h
  · rw [h]; exact hd
  · exact h.1

/-- A cardinal direction never equals its own negation. -/
theorem dirOK_ne_neg {d : Pos} (hd : dirOK d) : d ≠ (d.1 * -1, d.2 * -1) := by
  rcases hd with h | h | h | h <;> subst h <;> decide

/-- The resolver never returns the exact negation of the current direction,
when the current direction is cardinal. -/
theorem get_hand_direction_no_reverse {d : Pos} (hd : dirOK d) (head : Pos) (f : ℤ × ℤ) :
    get_hand_direction head d f ≠ (d.1 * -1, d.2 * -1) := by
  rcases get_hand_direction_cases head d f with h | h
  · rw [h]; exact dirOK_ne_neg hd
  · intro hcontra
    apply h.2
    rw [hcontra]
    obtain ⟨d1, d2⟩ := d
    simp

/-! ### Field-preservation lemmas -/

/-- Method `update` never changes the stored direction. -/
theorem update_direction {s s' : State} {t : ℚ} {rand : List (ℕ × ℕ)}
    (h : update s t rand = some s') : s'.direction = s.direction := by
  simp only [update] at h
  split_ifs at h with hgo hlt
  · cases h; rfl
  · cases h; rfl
  · simp only [tickAct] at h
    rcases hsn : s.snake with _ | ⟨head, rest⟩ <;> simp only [hsn] at h
    · cases h
    · split_ifs at h with h1 h2
      · cases h; rfl
      · rcases hg : generate_food
            ((head.1 + s.direction.1, head.2 + s.direction.2) :: head :: rest) rand
          with _ | p <;> simp only [hg] at h
        · cases h
        · injection h with h
          subst h
          rfl
      · cases h; rfl

/-- Method `update` never changes the direction-cooldown timestamp. -/
theorem update_last_direction_change {s s' : State} {t : ℚ} {rand : List (ℕ × ℕ)}
    (h : update s t rand = some s') : s'.last_direction_change = s.last_direction_change := by
  simp only [update] at h
  split_ifs at h with hgo hlt
  · cases h; rfl
  · cases h; rfl
  · simp only [tickAct] at h
    rcases hsn : s.snake with _ | ⟨head, rest⟩ <;> simp only [hsn] at h
    · cases h
    · split_ifs at h with h1 h2
      · cases h; rfl
      · rcases hg : generate_food
            ((head.1 + s.direction.1, head.2 + s.direction.2) :: head :: rest) rand
          with _ | p <;> simp only [hg] at h
        · cases h
        · injection h with h
          subst h
          rfl
      · cases h; rfl

/-- The direction-sampling phase changes only the direction and its
timestamp, and stamps the timestamp exactly when it accepts a change. -/
theorem stageDir_spec {s s' : State} {now : ℚ} {finger : Option (ℤ × ℤ)}
    (h : stageDir s now finger = some s') :
    (s' = s ∨
      (s'.last_direction_change = now ∧ s'.direction ≠ s.direction ∧
        s' = { s with direction := s'.direction,
                      last_direction_change := now })) ∧
    (dirOK s.direction → dirOK s'.direction) := by
  rcases finger with _ | f
  · simp only [stageDir, Option.some.injEq] at h
    subst h
    exact ⟨Or.inl rfl, fun hd => hd⟩
  · simp only [stageDir] at h
    split_ifs at h with hgo hcool
    · cases h
      exact ⟨Or.inl rfl, fun hd => hd⟩
    · rcases hsn : s.snake with _ | ⟨head, rest⟩ <;> simp only [hsn] at h
      · cases h
      · split_ifs at h with hne
        · cases h
          exact ⟨Or.inr ⟨rfl, hne, rfl⟩, fun hd => get_hand_direction_dirOK hd head f⟩
        · cases h
          exact ⟨Or.inl rfl, fun hd => hd⟩
    · rcases hsn : s.snake with _ | ⟨head, rest⟩ <;> simp only [hsn] at h
      · cases h
      · cases h
        exact ⟨Or.inl rfl, fun hd => hd⟩

/-! ### Guard lemmas for `update` and `reset_game` -/

/-- Method `update` is the identity when the game is over (line 132). -/
theorem update_over {s : State} {t : ℚ} {rand : List (ℕ × ℕ)}
    (hgo : s.game_over = true) : update s t rand = some s := by
  simp [update, hgo]

/-- Method `update` is the identity when called again within the tick window
(line 136). -/
theorem update_not_due {s : State} {t : ℚ} {rand : List (ℕ × ℕ)}
    (hlt : t - s.last_update < game_speed) : update s t rand = some s := by
  by_cases hgo : s.game_over <;> simp [update, hgo, hlt]

/-- A due `update` call on a running game performs the tick body. -/
theorem update_due {s : State} {t : ℚ} {rand : List (ℕ × ℕ)}
    (hgo : s.game_over = false) (hdue : game_speed ≤ t - s.last_update) :
    update s t rand = tickAct s t rand := by
  simp [update, hgo, not_lt.mpr hdue]

/-- An acted tick stamps `last_update` with the call time (line 139). -/
theorem tickAct_last_update {s s' : State} {t : ℚ} {rand : List (ℕ × ℕ)}
    (h : tickAct s t rand = some s') : s'.last_update = t := by
  simp only [tickAct] at h
  rcases hsn : s.snake with _ | ⟨head, rest⟩ <;> simp only [hsn] at h
  · cases h
  · split_ifs at h with h1 h2
    · injection h with h; subst h; rfl
    · rcases hg : generate_food
          ((head.1 + s.direction.1, head.2 + s.direction.2) :: head :: rest) rand
        with _ | p <;> simp only [hg] at h
      · cases h
      · injection h with h; subst h; rfl
    · injection h with h; subst h; rfl

/-- What `reset_game` produces, field by field. -/
theorem reset_game_spec {s s' : State} {now : ℚ} {rand : List (ℕ × ℕ)}
    (h : reset_game s now rand = some s') :
    ∃ f, generate_food [(width / 2, height / 2)] rand = some f ∧
      s' = { s with snake := [(width / 2, height / 2)], direction := (grid_size, 0),
                    food := f, score := 0, game_over := false, last_update := now } := by
  simp only [reset_game] at h
  rcases hg : generate_food [(width / 2, height / 2)] rand with _ | f <;>
    simp only [hg] at h
  · cases h
  · injection h with h
    exact ⟨f, rfl, h.symm⟩

/-! ### Preservation of the inductive invariant -/

/-- One cardinal step from an aligned cell lands on an aligned cell. -/
theorem gridAligned_step {p d : Pos} (hp : gridAligned p) (hd : dirOK d) :
    gridAligned (p.1 + d.1, p.2 + d.2) := by
  obtain ⟨h1, h2⟩ := hp
  rcases hd with h | h | h | h <;> subst h <;>
    constructor <;> simp only [grid_size] at h1 h2 ⊢ <;> omega

/-- One cardinal step never stays on the same cell. -/
theorem step_ne {p d : Pos} (hd : dirOK d) : (p.1 + d.1, p.2 + d.2) ≠ p := by
  rcases hd with h | h | h | h <;> subst h <;>
    simp [Prod.ext_iff, grid_size]

/-- The tick body preserves the invariant. -/
theorem Inv_tickAct {s s' : State} {t : ℚ} {rand : List (ℕ × ℕ)}
    (hs : Inv s) (h : tickAct s t rand = some s') : Inv s' := by
  obtain ⟨hne, hbd, hnd, hdir, hsc⟩ := hs
  simp only [tickAct] at h
  rcases hsn : s.snake with _ | ⟨head, rest⟩ <;> simp only [hsn] at h
  · exact absurd hsn hne
  · have hhead : gridAligned head := (hbd head (by rw [hsn]; exact List.mem_cons_self _ _)).2
    have hnh_al : gridAligned (head.1 + s.direction.1, head.2 + s.direction.2) :=
      gridAligned_step hhead hdir
    have hnh_ne : (head.1 + s.direction.1, head.2 + s.direction.2) ≠ head := step_ne hdir
    split_ifs at h with hcol hfood
    · -- collision tick: only `game_over` and `last_update` change
      injection h with h; subst h
      refine ⟨?_, ?_, ?_, hdir, ?_⟩
      · simp
      · intro p hp
        exact hbd p (by rw [hsn]; exact hp)
      · intro hq
        exact absurd hq (by simp)
      · rw [hsn] at hsc
        exact hsc
    · -- food tick: prepend the new head, keep the tail
      push_neg at hcol
      obtain ⟨hx0, hx1, hy0, hy1, hmem⟩ := hcol
      rcases hg : generate_food
          ((head.1 + s.direction.1, head.2 + s.direction.2) :: head :: rest) rand
        with _ | p <;> simp only [hg] at h
      · cases h
      · injection h with h; subst h
        refine ⟨by simp, ?_, ?_, hdir, ?_⟩
        · intro q hq
          rcases List.mem_cons.mp hq with hq | hq
          · subst hq
            exact ⟨⟨hx0, hx1, hy0, hy1⟩, hnh_al⟩
          · exact hbd q (hsn ▸ hq)
        · intro hgo
          have hnd' : s.snake.Nodup := hnd hgo
          rw [hsn] at hnd'
          refine List.nodup_cons.mpr ⟨?_, hnd'⟩
          simp only [List.mem_cons, not_or]
          exact ⟨hnh_ne, hmem⟩
        · simp only [List.length_cons]
          rw [hsn] at hsc
          simp only [List.length_cons] at hsc
          omega
    · -- ordinary tick: prepend the new head, drop the tail
      push_neg at hcol
      obtain ⟨hx0, hx1, hy0, hy1, hmem⟩ := hcol
      injection h with h; subst h
      have hsub : List.Sublist
          ((head.1 + s.direction.1, head.2 + s.direction.2) :: (head :: rest).dropLast)
          ((head.1 + s.direction.1, head.2 + s.direction.2) :: head :: rest) :=
        List.Sublist.cons₂ _ (List.dropLast_sublist _)
      have hdl : ((head.1 + s.direction.1, head.2 + s.direction.2) ::
          head :: rest).dropLast =
          (head.1 + s.direction.1, head.2 + s.direction.2) :: (head :: rest).dropLast := rfl
      refine ⟨by simp [hdl], ?_, ?_, hdir, ?_⟩
      · intro q hq
        rw [hdl] at hq
        rcases List.mem_cons.mp hq with hq | hq
        · subst hq
          exact ⟨⟨hx0, hx1, hy0, hy1⟩, hnh_al⟩
        · exact hbd q (hsn ▸ (List.dropLast_sublist (head :: rest)).subset hq)
      · intro hgo
        have hnd' : s.snake.Nodup := hnd hgo
        rw [hsn] at hnd'
        rw [hdl]
        refine (hsub.nodup ?_)
        refine List.nodup_cons.mpr ⟨?_, hnd'⟩
        simp only [List.mem_cons, not_or]
        exact ⟨hnh_ne, hmem⟩
      · rw [hdl]
        simp only [List.length_cons, List.length_dropLast]
        rw [hsn] at hsc
        simp only [List.length_cons] at hsc
        omega

/-- Method `update` preserves the invariant. -/
theorem Inv_update {s s' : State} {t : ℚ} {rand : List (ℕ × ℕ)}
    (hs : Inv s) (h : update s t rand = some s') : Inv s' := by
  simp only [update] at h
  split_ifs at h with hgo hlt
  · cases h; exact hs
  · cases h; exact hs
  · exact Inv_tickAct hs h

/-- The direction-sampling phase preserves the invariant. -/
theorem Inv_stage {s s' : State} {e : Event}
    (hs : Inv s) (h : Event.stage s e = some s') : Inv s' := by
  rcases e with ⟨now, finger, rand⟩ | ⟨now, rand⟩
  · obtain ⟨hcase, hdirp⟩ := stageDir_spec h
    obtain ⟨hne, hbd, hnd, hdir, hsc⟩ := hs
    rcases hcase with rfl | ⟨hldc, hneq, heq⟩
    · exact ⟨hne, hbd, hnd, hdir, hsc⟩
    · rw [heq]
      exact ⟨hne, hbd, hnd, hdirp hdir, hsc⟩
  · cases h; exact hs

/-- Running any event sequence preserves the invariant. -/
theorem Inv_runLog {s s' : State} {evs : List Event} {log : List Pos}
    (hs : Inv s) (h : runLog s evs = some (s', log)) : Inv s' := by
  induction evs generalizing s log with
  | nil =>
    simp only [runLog, Option.some.injEq, Prod.mk.injEq] at h
    rw [← h.1]
    exact hs
  | cons e rest ih =>
    simp only [runLog] at h
    rcases h1 : Event.stage s e with _ | s1
    · rw [h1] at h
      exact absurd h (by simp)
    · simp only [h1] at h
      rcases h2 : update s1 e.time e.rand with _ | s2
      · rw [h2] at h
        exact absurd h (by simp)
      · simp only [h2] at h
        rcases h3 : runLog s2 rest with _ | pr
        · rw [h3] at h
          exact absurd h (by simp)
        · obtain ⟨sf, lg⟩ := pr
          simp only [h3, Option.some.injEq, Prod.mk.injEq] at h
          obtain ⟨h4, h5⟩ := h
          subst h4
          exact ih (Inv_update (Inv_stage hs h1) h2) h3

/-- Running any event sequence from a freshly reset state preserves the
invariant. -/
theorem Inv_run {s s' : State} {evs : List Event}
    (hs : Inv s) (h : run s evs = some s') : Inv s' := by
  simp only [run, Option.map_eq_some'] at h
  obtain ⟨⟨sf, lg⟩, hrl, heq⟩ := h
  rw [← heq]
  exact Inv_runLog hs hrl

/-- A reset state satisfies the invariant. -/
theorem Inv_reset {s s' : State} {now : ℚ} {rand : List (ℕ × ℕ)}
    (h : reset_game s now rand = some s') : Inv s' := by
  obtain ⟨f, hf, rfl⟩ := reset_game_spec h
  refine ⟨by simp, ?_, by simp, Or.inl rfl, by simp⟩
  intro p hp
  simp only [List.mem_singleton] at hp
  subst hp
  exact ⟨by norm_num [inBoard, width, height],
         by norm_num [gridAligned, width, height, grid_size]⟩

/-- After a direction-sampling phase, the stored direction is never the exact
negation of the stored direction before it (given a cardinal direction). -/
theorem stageDir_no_reverse {s s' : State} {now : ℚ} {finger : Option (ℤ × ℤ)}
    (hd : dirOK s.direction) (h : stageDir s now finger = some s') :
    s'.direction ≠ (s.direction.1 * -1, s.direction.2 * -1) := by
  rcases finger with _ | f
  · simp only [stageDir, Option.some.injEq] at h
    subst h
    exact dirOK_ne_neg hd
  · simp only [stageDir] at h
    split_ifs at h with hgo hcool
    · injection h with h; subst h
      exact dirOK_ne_neg hd
    · rcases hsn : s.snake with _ | ⟨head, rest⟩ <;> simp only [hsn] at h
      · cases h
      · split_ifs at h with hne
        · injection h with h; subst h
          exact get_hand_direction_no_reverse hd head f
        · injection h with h; subst h
          exact dirOK_ne_neg hd
    · rcases hsn : s.snake with _ | ⟨head, rest⟩ <;> simp only [hsn] at h
      · cases h
      · injection h with h; subst h
        exact dirOK_ne_neg hd

/-! ### The claims -/

/-- C1, counterexample: in `loopState` the head `(20, 0)` moving Left enters
`(0, 0)`, which is exactly the current tail cell (`getLast?`), no food is
eaten (food is at `(100, 100)`), and the tail would be vacated this tick —
yet `update` sets `game_over := true`, because line 146 tests
`new_head in self.snake[1:]`, a slice that still contains the tail. -/
theorem C1_vacating_tail_sets_over_cex :
    loopState.snake.getLast? = some (0, 0) ∧
    ((20 : ℤ) + loopState.direction.1, (0 : ℤ) + loopState.direction.2) = (0, 0) ∧
    ((0 : ℤ), (0 : ℤ)) ≠ loopState.food ∧
    (update loopState 1 []).map State.game_over = some true := by
  refine ⟨rfl, by decide, by decide, ?_⟩
  norm_num [update, tickAct, loopState, game_speed, width, height]

/-- C1, amended: a tick that moves the head into ANY cell of `snake[1:]` —
including the tail cell about to be vacated this tick — sets GameStatus to
Over and leaves the snake unchanged; the implementation has no exemption for
the vacating tail. -/
theorem C1_any_body_segment_sets_over (s : State) (now : ℚ) (rand : List (ℕ × ℕ))
    (head : Pos) (rest : List Pos)
    (hgo : s.game_over = false)
    (hdue : game_speed ≤ now - s.last_update)
    (hsn : s.snake = head :: rest)
    (hhit : (head.1 + s.direction.1, head.2 + s.direction.2) ∈ rest) :
    update s now rand = some { s with last_update := now, game_over := true } := by
  rw [update_due hgo hdue]
  simp only [tickAct, hsn]
  split_ifs with hcol
  · rfl
  all_goals exact absurd (Or.inr (Or.inr (Or.inr (Or.inr hhit)))) hcol

/-- C1, witness for the amended claim at `loopState`. -/
theorem C1_any_body_segment_sets_over_witness :
    update loopState 1 [] =
      some { loopState with last_update := 1, game_over := true } :=
  C1_any_body_segment_sets_over loopState 1 [] (20, 0) [(20, 20), (0, 20), (0, 0)]
    rfl (by norm_num [loopState, game_speed]) rfl (by decide)

/-- C2, counterexample: when the snake occupies every grid cell
(`fullBoard`), `generate_food` never returns — no sequence of random draws
makes the `while True` loop of lines 98-103 exit — contradicting "it
either returns a free cell or reports an error when no free cell exists, and
it never loops indefinitely". -/
theorem C2_full_board_never_returns_cex : ¬ generate_food_terminates fullBoard := by
  rintro ⟨rand, h⟩
  rw [generate_food_fullBoard rand] at h
  simp at h

/-- C2, amended: food placement returns a cell free of the snake as soon as
the random draw sequence proposes one free cell (so it terminates whenever a
free cell exists and the draws eventually hit one); but when the snake
occupies every grid cell it never returns — it loops forever rather than
reporting an error. -/
theorem C2_free_draw_gives_free_cell (snake : List Pos) (rand : List (ℕ × ℕ))
    (h : ∃ r ∈ rand, foodCell r ∉ snake) :
    ∃ p, generate_food snake rand = some p ∧ p ∉ snake :=
  generate_food_of_free h

/-- C2, witness for the amended claim. -/
theorem C2_free_draw_gives_free_cell_witness :
    ∃ p, generate_food [((320 : ℤ), (240 : ℤ))] [(0, 0)] = some p ∧
      p ∉ [((320 : ℤ), (240 : ℤ))] :=
  C2_free_draw_gives_free_cell [((320 : ℤ), (240 : ℤ))] [(0, 0)]
    ⟨(0, 0), by decide, by decide⟩

/-- C3, counterexample: running `reversalEvents` from `startState`, the log
of directions applied at acted ticks is `[(20, 0), (-20, 0)]` — tick n
applies Right and tick n+1 applies Left, its exact negation.  Two direction
changes (Up, then Left) were accepted between the two ticks; each single
change passes the anti-reversal test of line 126, but their composition
reverses the applied direction. -/
theorem C3_applied_direction_reverses_cex :
    (runLog startState reversalEvents).map Prod.snd = some [(20, 0), (-20, 0)] ∧
    ((-20 : ℤ), (0 : ℤ)) = ((20 : ℤ) * -1, (0 : ℤ) * -1) := by
  constructor
  · norm_num [runLog, startState, reversalEvents, Event.stage, Event.time, Event.rand,
      stageDir, update, tickAct, acted, get_hand_direction, generate_food, foodCell,
      game_speed, direction_cooldown, dead_zone, width, height, grid_size]
  · norm_num

/-- C3, amended: across any SINGLE frame or tick event the stored direction
never becomes the exact negation of the stored direction before the event
(each accepted change is non-reversing); the claimed property — no reversal
between the directions applied at consecutive ticks — fails when two
accepted changes fall between the ticks, as the counterexample shows. -/
theorem C3_no_reversal_per_event (s s1 s' : State) (e : Event)
    (hd : dirOK s.direction)
    (hstage : Event.stage s e = some s1)
    (hupd : update s1 e.time e.rand = some s') :
    s'.direction ≠ (s.direction.1 * -1, s.direction.2 * -1) := by
  rw [update_direction hupd]
  rcases e with ⟨now, finger, rand⟩ | ⟨now, rand⟩
  · exact stageDir_no_reverse hd hstage
  · simp only [Event.stage, Option.some.injEq] at hstage
    subst hstage
    exact dirOK_ne_neg hd

/-- C3, witness for the amended claim: one tick event from `startState`. -/
theorem C3_no_reversal_per_event_witness :
    startTickedState.direction ≠
      (startState.direction.1 * -1, startState.direction.2 * -1) :=
  C3_no_reversal_per_event startState startState startTickedState (Event.tick 1 [])
    (Or.inl rfl) rfl
    (by norm_num [update, tickAct, Event.time, Event.rand, startState, startTickedState,
      game_speed, width, height])

/-- C4: for a running state, every `update` call whose timestamp lies within
one `game_speed` window of the last acted tick leaves the state exactly
unchanged (any number of such calls in sequence), while a call at or after
the window boundary performs exactly the one-step transition `tickAct` —
which stamps `last_update := now`, so the next window starts there. -/
theorem C4_rate_independence (s : State) (hgo : s.game_over = false) :
    (∀ calls : List (ℚ × List (ℕ × ℕ)),
        (∀ c ∈ calls, c.1 - s.last_update < game_speed) →
        runTicks s calls = some s) ∧
    (∀ now rand, game_speed ≤ now - s.last_update →
        update s now rand = tickAct s now rand ∧
        ∀ s', tickAct s now rand = some s' → s'.last_update = now) := by
  constructor
  · intro calls hc
    induction calls with
    | nil => rfl
    | cons c cs ih =>
      have h1 : update s c.1 c.2 = some s := update_not_due (hc c (List.mem_cons_self _ _))
      simp only [runTicks, h1]
      exact ih (fun d hd => hc d (List.mem_cons_of_mem _ hd))
  · intro now rand hdue
    exact ⟨update_due hgo hdue, fun s' h => tickAct_last_update h⟩

/-- C4, witness: ticks at 0.01, 0.05, 0.11 change nothing; a tick at 0.13
performs the transition. -/
theorem C4_rate_independence_witness :
    runTicks startState [(1 / 100, []), (5 / 100, []), (11 / 100, [])] = some startState ∧
    update startState (13 / 100) [] = tickAct startState (13 / 100) [] := by
  have h := C4_rate_independence startState rfl
  refine ⟨h.1 [(1 / 100, []), (5 / 100, []), (11 / 100, [])] ?_, (h.2 (13 / 100) [] ?_).1⟩
  · intro c hc
    fin_cases hc <;> norm_num [startState, game_speed]
  · norm_num [startState, game_speed]

/-- C5: a tick that moves the head onto the food cell (and for which
`generate_food` returns) grows the snake by exactly one segment, adds
exactly 10 to the score, keeps the game running, and places the new food
outside the whole new snake, new head included. -/
theorem C5_growth_law (s : State) (now : ℚ) (rand : List (ℕ × ℕ))
    (head f : Pos) (rest : List Pos)
    (hgo : s.game_over = false)
    (hdue : game_speed ≤ now - s.last_update)
    (hsn : s.snake = head :: rest)
    (hfood : (head.1 + s.direction.1, head.2 + s.direction.2) = s.food)
    (hx0 : 0 ≤ head.1 + s.direction.1) (hx1 : head.1 + s.direction.1 < width)
    (hy0 : 0 ≤ head.2 + s.direction.2) (hy1 : head.2 + s.direction.2 < height)
    (hmem : (head.1 + s.direction.1, head.2 + s.direction.2) ∉ rest)
    (hgen : generate_food ((head.1 + s.direction.1, head.2 + s.direction.2) :: s.snake)
        rand = some f) :
    ∃ s', update s now rand = some s' ∧
      s'.snake.length = s.snake.length + 1 ∧
      s'.score = s.score + 10 ∧
      s'.food ∉ s'.snake ∧
      s'.game_over = false := by
  rw [update_due hgo hdue]
  simp only [tickAct, hsn]
  rw [hsn] at hgen
  split_ifs with hcol
  · exfalso
    rcases hcol with h | h | h | h | h
    · exact absurd hx0 (not_le.mpr h)
    · exact absurd h (not_le.mpr hx1)
    · exact absurd hy0 (not_le.mpr h)
    · exact absurd h (not_le.mpr hy1)
    · exact hmem h
  · rw [hgen]
    refine ⟨_, rfl, ?_, rfl, ?_, hgo⟩
    · simp [hsn]
    · exact generate_food_not_mem hgen

/-- C5, witness: `aboutToEatState` eats the food at `(320, 240)` and the
fresh food lands on `(0, 0)`. -/
theorem C5_growth_law_witness :
    ∃ s', update aboutToEatState 1 [(0, 0)] = some s' ∧
      s'.snake.length = aboutToEatState.snake.length + 1 ∧
      s'.score = aboutToEatState.score + 10 ∧
      s'.food ∉ s'.snake ∧
      s'.game_over = false :=
  C5_growth_law aboutToEatState 1 [(0, 0)] (300, 240) (0, 0) []
    rfl (by norm_num [aboutToEatState, game_speed]) rfl (by decide)
    (by decide) (by decide) (by decide) (by decide) (by decide) (by decide)

/-- C6: if both |dx| and |dy| are at most the dead zone (40), or
|dx| = |dy|, the resolver returns the current direction unchanged; and
whenever it does change the direction, one axis strictly dominated the other
AND strictly exceeded the dead zone — so a sample exactly on the boundary
yields no change. -/
theorem C6_dead_zone_and_ties_no_change (head direction : Pos) (finger : ℤ × ℤ) :
    (((|finger.1 - head.1| ≤ dead_zone ∧ |finger.2 - head.2| ≤ dead_zone) ∨
        |finger.1 - head.1| = |finger.2 - head.2|) →
      get_hand_direction head direction finger = direction) ∧
    (get_hand_direction head direction finger ≠ direction →
      ((|finger.1 - head.1| > |finger.2 - head.2| ∧ |finger.1 - head.1| > dead_zone) ∨
        (|finger.2 - head.2| > |finger.1 - head.1| ∧ |finger.2 - head.2| > dead_zone))) := by
  constructor
  · intro h
    have h1 : ¬(|finger.1 - head.1| > |finger.2 - head.2| ∧
        |finger.1 - head.1| > dead_zone) := by
      rcases h with ⟨ha, hb⟩ | hab
      · intro hc; exact absurd hc.2 (not_lt.mpr ha)
      · intro hc; rw [hab] at hc; exact lt_irrefl _ hc.1
    have h2 : ¬(|finger.2 - head.2| > |finger.1 - head.1| ∧
        |finger.2 - head.2| > dead_zone) := by
      rcases h with ⟨ha, hb⟩ | hab
      · intro hc; exact absurd hc.2 (not_lt.mpr hb)
      · intro hc; rw [hab] at hc; exact lt_irrefl _ hc.1
    unfold get_hand_direction
    dsimp only
    rw [if_neg h1, if_neg h2]
  · intro hne
    by_cases h1 : |finger.1 - head.1| > |finger.2 - head.2| ∧
        |finger.1 - head.1| > dead_zone
    · exact Or.inl h1
    · by_cases h2 : |finger.2 - head.2| > |finger.1 - head.1| ∧
          |finger.2 - head.2| > dead_zone
      · exact Or.inr h2
      · exfalso
        apply hne
        unfold get_hand_direction
        dsimp only
        rw [if_neg h1, if_neg h2]

/-- C6, witness: the spec scenario — head `(320, 240)`, pointer `(330, 245)`
(|dx| = 10, |dy| = 5, both within the dead zone) resolves to "no change". -/
theorem C6_dead_zone_and_ties_no_change_witness :
    get_hand_direction (320, 240) (20, 0) (330, 245) = (20, 0) :=
  (C6_dead_zone_and_ties_no_change (320, 240) (20, 0) (330, 245)).1 (Or.inl (by decide))

/-- C7: in every state reached from a reset by any sequence of frame/tick
events, every snake segment lies in `[0, W) × [0, H)` with both coordinates
multiples of the cell size, and while running no two segments coincide. -/
theorem C7_segments_in_bounds_aligned_distinct (s0 s1 s2 : State) (t0 : ℚ)
    (r0 : List (ℕ × ℕ)) (evs : List Event)
    (hreset : reset_game s0 t0 r0 = some s1)
    (hrun : run s1 evs = some s2) :
    (∀ p ∈ s2.snake,
        (0 ≤ p.1 ∧ p.1 < width ∧ 0 ≤ p.2 ∧ p.2 < height) ∧
        (p.1 % grid_size = 0 ∧ p.2 % grid_size = 0)) ∧
    (s2.game_over = false → s2.snake.Nodup) := by
  have hinv : Inv s2 := Inv_run (Inv_reset hreset) hrun
  exact ⟨fun p hp => ⟨(hinv.2.1 p hp).1, (hinv.2.1 p hp).2⟩, hinv.2.2.1⟩

/-- C7, witness: reset from `overState`, then one acted tick. -/
theorem C7_segments_in_bounds_aligned_distinct_witness :
    (∀ p ∈ tickedWitnessState.snake,
        (0 ≤ p.1 ∧ p.1 < width ∧ 0 ≤ p.2 ∧ p.2 < height) ∧
        (p.1 % grid_size = 0 ∧ p.2 % grid_size = 0)) ∧
    (tickedWitnessState.game_over = false → tickedWitnessState.snake.Nodup) :=
  C7_segments_in_bounds_aligned_distinct overState resetWitnessState tickedWitnessState
    0 [(0, 0)] [Event.tick 1 []]
    (by norm_num [reset_game, generate_food, foodCell, Prod.ext_iff, overState,
      resetWitnessState, width, height, grid_size])
    (by norm_num [run, runLog, Event.stage, Event.time, Event.rand, update, tickAct,
      acted, generate_food, foodCell, resetWitnessState, tickedWitnessState,
      game_speed, width, height, grid_size])

/-- C8: once `game_over` is set, any number of `update` calls returns the
state entirely unchanged, and a `reset_game` produces a running state. -/
theorem C8_over_is_silent_noop_until_reset (s : State) (hgo : s.game_over = true) :
    (∀ calls : List (ℚ × List (ℕ × ℕ)), runTicks s calls = some s) ∧
    (∀ now rand s', reset_game s now rand = some s' → s'.game_over = false) := by
  constructor
  · intro calls
    induction calls with
    | nil => rfl
    | cons c cs ih =>
      simp only [runTicks, update_over hgo]
      exact ih
  · intro now rand s' h
    obtain ⟨f, hf, rfl⟩ := reset_game_spec h
    rfl

/-- C8, witness: two ticks on `overState` change nothing; resetting it at
time 2 yields a running state. -/
theorem C8_over_is_silent_noop_until_reset_witness :
    runTicks overState [(1 / 2, []), (9, [(1, 2)])] = some overState ∧
    ∀ s', reset_game overState 2 [(0, 0)] = some s' → s'.game_over = false := by
  have h := C8_over_is_silent_noop_until_reset overState rfl
  exact ⟨h.1 _, fun s' hs' => h.2 2 [(0, 0)] s' hs'⟩

/-- C9: in every state reached from a reset by any sequence of frame/tick
events, the score equals 10 times (snake length - 1). -/
theorem C9_score_locked_to_length (s0 s1 s2 : State) (t0 : ℚ)
    (r0 : List (ℕ × ℕ)) (evs : List Event)
    (hreset : reset_game s0 t0 r0 = some s1)
    (hrun : run s1 evs = some s2) :
    s2.score = 10 * (s2.snake.length - 1) :=
  (Inv_run (Inv_reset hreset) hrun).2.2.2.2

/-- C9, witness: reset from `overState`, then one acted tick. -/
theorem C9_score_locked_to_length_witness :
    tickedWitnessState.score = 10 * (tickedWitnessState.snake.length - 1) :=
  C9_score_locked_to_length overState resetWitnessState tickedWitnessState
    0 [(0, 0)] [Event.tick 1 []]
    (by norm_num [reset_game, generate_food, foodCell, Prod.ext_iff, overState,
      resetWitnessState, width, height, grid_size])
    (by norm_num [run, runLog, Event.stage, Event.time, Event.rand, update, tickAct,
      acted, generate_food, foodCell, resetWitnessState, tickedWitnessState,
      game_speed, width, height, grid_size])

/-- C10: `reset_game` leaves `last_direction_change` unchanged; `update`
never touches it; and a frame's direction sampling either leaves it
unchanged or stamps it with the frame time exactly when a direction change
is accepted — so it is set only at construction and on accepted changes,
and a cooldown started before a restart still throttles afterwards. -/
theorem C10_reset_keeps_cooldown_timestamp :
    (∀ s s' : State, ∀ now : ℚ, ∀ rand : List (ℕ × ℕ),
        reset_game s now rand = some s' →
        s'.last_direction_change = s.last_direction_change) ∧
    (∀ s s' : State, ∀ t : ℚ, ∀ rand : List (ℕ × ℕ),
        update s t rand = some s' →
        s'.last_direction_change = s.last_direction_change) ∧
    (∀ s s' : State, ∀ now : ℚ, ∀ finger : Option (ℤ × ℤ),
        stageDir s now finger = some s' →
        s'.last_direction_change = s.last_direction_change ∨
          (s'.last_direction_change = now ∧ s'.direction ≠ s.direction)) := by
  refine ⟨?_, ?_, ?_⟩
  · intro s s' now rand h
    obtain ⟨f, hf, rfl⟩ := reset_game_spec h
    rfl
  · intro s s' t rand h
    exact update_last_direction_change h
  · intro s s' now finger h
    obtain ⟨hcase, hdirp⟩ := stageDir_spec h
    rcases hcase with rfl | ⟨h1, h2, h3⟩
    · exact Or.inl rfl
    · exact Or.inr ⟨h1, h2⟩

/-- C10, witness: resetting `overState` (cooldown stamped at 0.7) at time 5
keeps `last_direction_change = 0.7`. -/
theorem C10_reset_keeps_cooldown_timestamp_witness :
    resetFromOverState.last_direction_change = overState.last_direction_change :=
  C10_reset_keeps_cooldown_timestamp.1 overState resetFromOverState 5 [(0, 0)]
    (by norm_num [reset_game, generate_food, foodCell, Prod.ext_iff, overState,
      resetFromOverState, width, height, grid_size])

end SnakeApp
